import Mathlib

/-!
Verification of the FactuNabo invoicing core: shallow embedding of the
offline retry queue (`app/services/offline_service.py`), the invoice
processing helpers (`app/services/invoice_processing.py`) and the history
statistics model (`app/models/history.py`), together with proofs of the
specified properties.

Modelling conventions:
* SQLite tables become Lean lists of row structures; `datetime.now()` is an
  explicit `Nat` timestamp argument; logger calls append to an explicit log.
* Python `Decimal` values are modelled as exact rationals (`ℚ`), which is
  faithful because `Decimal` arithmetic on these code paths is exact.
* Python strings are modelled as `List Char`; `str.strip()` strips the
  whitespace characters recognised by `Char.isWhitespace`.
-/

namespace Offline

/-- Row of the `offline_queue` table as created by `init_database`:
id, xml_content, num_factura, empresa, ejercicio, cliente_doc, api_key,
fecha_creacion, intentos (default 0), ultimo_intento (nullable),
estado (default 'PENDIENTE'). -/
structure Row where
  id : Nat
  xml_content : List Nat
  num_factura : String
  empresa : String
  ejercicio : String
  cliente_doc : String
  api_key : String
  fecha_creacion : Nat
  intentos : Nat
  ultimo_intento : Option Nat
  estado : String
deriving DecidableEq, Repr

/-- State owned by `OfflineQueueService`: the table rows in insertion
order, the next SQLite rowid, and the log emitted through `logger`. -/
structure DB where
  table : List Row
  nextId : Nat
  log : List String
deriving DecidableEq, Repr

/-- Empty database; SQLite assigns rowid 1 to the first insert. -/
def emptyDB : DB := { table := [], nextId := 1, log := [] }

/-- Embeds `OfflineQueueService.add_to_queue`: INSERT with estado
'PENDIENTE' (attempt counter takes the column default 0, last attempt the
column default NULL) and return of `cursor.lastrowid`. -/
def addToQueue (db : DB) (xml : List Nat)
    (invoice_id company exercise customer_doc api_key : String)
    (now : Nat) : DB × Nat :=
  let row : Row :=
    { id := db.nextId, xml_content := xml, num_factura := invoice_id,
      empresa := company, ejercicio := exercise, cliente_doc := customer_doc,
      api_key := api_key, fecha_creacion := now, intentos := 0,
      ultimo_intento := none, estado := "PENDIENTE" }
  ({ table := db.table ++ [row], nextId := db.nextId + 1,
     log := db.log ++ ["Factura " ++ invoice_id ++
       " añadida a cola offline con ID " ++ toString db.nextId] },
   db.nextId)

/-- Embeds `OfflineQueueService.mark_as_sent`: UPDATE estado='ENVIADO',
ultimo_intento=now WHERE id=queue_id — with no condition on the current
estado. -/
def markAsSent (db : DB) (queue_id : Nat) (now : Nat) : DB :=
  { db with
    table := db.table.map (fun r =>
      if r.id = queue_id then
        { r with estado := "ENVIADO", ultimo_intento := some now }
      else r),
    log := db.log ++ ["Item " ++ toString queue_id ++ " marcado como enviado"] }

/-- Log line emitted by `mark_as_failed` (the warning that carries the
error message). -/
def failLog (queue_id : Nat) (estado : String) (intentos max_retries : Nat)
    (error_msg : String) : String :=
  "Item " ++ toString queue_id ++ " marcado como " ++ estado ++
    " (intento " ++ toString intentos ++ "/" ++ toString max_retries ++ "): " ++
    error_msg

/-- Embeds `OfflineQueueService.mark_as_failed`: SELECT intentos WHERE
id=queue_id (first matching row); if found, set intentos to the
incremented value, estado to 'FALLIDO' when the incremented value reaches
`max_retries` and 'PENDIENTE' otherwise, and ultimo_intento to now — again
with no condition on the current estado. -/
def markAsFailed (db : DB) (queue_id : Nat) (error_msg : String)
    (max_retries : Nat) (now : Nat) : DB :=
  match db.table.find? (fun r => r.id == queue_id) with
  | none => db
  | some row =>
    let intentos := row.intentos + 1
    let estado := if max_retries ≤ intentos then "FALLIDO" else "PENDIENTE"
    { db with
      table := db.table.map (fun r =>
        if r.id = queue_id then
          { r with estado := estado, intentos := intentos,
                   ultimo_intento := some now }
        else r),
      log := db.log ++ [failLog queue_id estado intentos max_retries error_msg] }

/-- Embeds `OfflineQueueService.clear_sent_items`: count then DELETE the
rows with estado 'ENVIADO', returning the count. -/
def clearSentItems (db : DB) : DB × Nat :=
  let count := (db.table.filter (fun r => r.estado == "ENVIADO")).length
  ({ db with
     table := db.table.filter (fun r => !(r.estado == "ENVIADO")),
     log := db.log ++ ["Eliminados " ++ toString count ++ " items enviados de la cola"] },
   count)

/-- Lookup of a queue item by id (first matching row, as `fetch_one`
returns). -/
def findRow (db : DB) (queue_id : Nat) : Option Row :=
  db.table.find? (fun r => r.id == queue_id)

/-- Queue operations considered by the claims, with `mark_failed` fixed to
the default `max_retries = 3`. -/
inductive Op where
  | enqueue (xml : List Nat) (invoice_id company exercise customer_doc api_key : String) (t : Nat)
  | markSent (queue_id : Nat) (t : Nat)
  | markFailed (queue_id : Nat) (err : String) (t : Nat)
  | clearSent

/-- Applies one queue operation to the database state. -/
def applyOp (db : DB) : Op → DB
  | .enqueue xml a b c d e t => (addToQueue db xml a b c d e t).1
  | .markSent qid t => markAsSent db qid t
  | .markFailed qid err t => markAsFailed db qid err 3 t
  | .clearSent => (clearSentItems db).1

/-- Runs a sequence of queue operations from a starting state. -/
def runOps (db : DB) (ops : List Op) : DB := ops.foldl applyOp db

/-- Invariant of C10: every PENDIENTE row has fewer than 3 attempts. -/
def PendingBound (db : DB) : Prop :=
  ∀ r ∈ db.table, r.estado = "PENDIENTE" → r.intentos < 3

end Offline

namespace History

/-- Embeds the `HistoryStats` dataclass of `app/models/history.py`; the
amount and the derived rate are modelled in exact arithmetic. -/
structure HistoryStats where
  total_invoices : Nat
  successful_invoices : Nat
  failed_invoices : Nat
  pending_invoices : Nat
  total_amount : ℚ
deriving DecidableEq, Repr

/-- Embeds the `success_rate` property: 0.0 when the total is 0, and
`(successful / total) * 100` otherwise. -/
def HistoryStats.success_rate (s : HistoryStats) : ℚ :=
  if s.total_invoices = 0 then 0
  else ((s.successful_invoices : ℚ) / (s.total_invoices : ℚ)) * 100

end History

namespace Invoice

/-- Embeds Python `str.strip()`: removes leading and trailing whitespace. -/
def pyStrip (l : List Char) : List Char :=
  ((l.dropWhile Char.isWhitespace).reverse.dropWhile Char.isWhitespace).reverse

/-- Numeric value of a decimal digit character. -/
def digitVal (c : Char) : Nat := c.toNat - 48

/-- Value of a big-endian decimal digit string. -/
def digitsToNat (l : List Char) : Nat := l.foldl (fun a c => 10 * a + digitVal c) 0

/-- Embeds the regular expression `\d+(?:\.0+)?` under `re.fullmatch`
(ASCII digits): one or more digits, optionally followed by a point and one
or more zeros. -/
def numPat (l : List Char) : Bool :=
  let ds := l.takeWhile Char.isDigit
  let rest := l.dropWhile Char.isDigit
  !ds.isEmpty &&
    (rest.isEmpty ||
      (match rest with
       | '.' :: zs => !zs.isEmpty && zs.all (fun c => c == '0')
       | _ => false))

/-- Decimal digit characters of `n`, most significant first; the fuel
argument (any bound of at least `n`) makes the recursion structural. -/
def natReprAux : Nat → Nat → List Char
  | 0, _ => []
  | fuel + 1, n => if n = 0 then [] else natReprAux fuel (n / 10) ++ [Char.ofNat (48 + n % 10)]

/-- Embeds Python `str` of a non-negative integer: its decimal digits. -/
def natRepr (n : Nat) : List Char := if n = 0 then ['0'] else natReprAux (n + 1) n

/-- Smallest integer whose conversion to IEEE-754 double precision
overflows to infinity under round-to-nearest, ties-to-even. -/
def maxFloatThreshold : Nat := 2 ^ 1024 - 2 ^ 970

/-- Rounds an integer `n ≥ 2 ^ 53` to 53 significant bits, round to
nearest with ties to even — the value `float` assigns to it. -/
def roundSig (n : Nat) : Nat :=
  let k := n.log2 - 52
  let q := n / 2 ^ k
  let r := n % 2 ^ k
  if 2 ^ k < 2 * r ∨ (2 * r = 2 ^ k ∧ q % 2 = 1) then (q + 1) * 2 ^ k else q * 2 ^ k

/-- Embeds Python `int(float(str(n)))` on a non-negative integer numeral
of value `n`: exact below `2 ^ 53`, rounded to the nearest double above,
and `none` when `float` overflows to infinity (`int(inf)` raises
`OverflowError`, which the source catches). -/
def intOfFloatNat (n : Nat) : Option Nat :=
  if n < 2 ^ 53 then some n
  else if maxFloatThreshold ≤ n then none
  else some (roundSig n)

/-- Embeds `InvoiceProcessingService.normalize_invoice_id` on a string
value: strip whitespace; when the result matches `\d+(?:\.0+)?`, return
`str(int(float(s)))` — the digits of the (float-rounded) integer value —
falling back to the stripped string when `int(float(s))` raises; otherwise
return the stripped string unchanged. -/
def normalize_invoice_id (x : List Char) : List Char :=
  let s := pyStrip x
  if numPat s then
    match intOfFloatNat (digitsToNat (s.takeWhile Char.isDigit)) with
    | some m => natRepr m
    | none => s
  else s

/-- Character of a decimal digit (proof-side abbreviation for the digits
emitted by `natReprAux`). -/
def digitChar (d : Nat) : Char := Char.ofNat (48 + d)

/-- Optional leading sign of a numeral; returns the sign and the rest. -/
def parseSign : List Char → Int × List Char
  | '+' :: r => (1, r)
  | '-' :: r => (-1, r)
  | l => (1, l)

/-- Optional exponent tail of a `Decimal` numeral: empty, or `e`/`E`
followed by an optionally signed digit string consuming the whole rest;
anything else is a parse error. -/
def parseExpTail : List Char → Option Int
  | [] => some 0
  | e :: rest =>
    if e == 'e' || e == 'E' then
      let es := (parseSign rest).1
      let r1 := (parseSign rest).2
      let ed := r1.takeWhile Char.isDigit
      let r2 := r1.dropWhile Char.isDigit
      if ed.isEmpty || !r2.isEmpty then none
      else some (es * (digitsToNat ed : Int))
    else none

/-- Value of a Python `Decimal` as it occurs on these code paths: a
finite exact rational, a quiet NaN, a signaling NaN, or an infinity
(`neg = true` for the negative one). The NaN payload and NaN sign carry
no weight in any operation the source performs, so they are not kept. -/
inductive PyDec where
  | fin (q : ℚ)
  | nan
  | snan
  | inf (neg : Bool)
deriving DecidableEq, Repr

/-- Syntactic parse of a `Decimal` literal: a signed finite numeral
(sign, coefficient, fraction length, exponent), a quiet or signaling NaN,
or a signed infinity. -/
inductive DecLit where
  | fin (sg : Int) (c : Nat) (f : Nat) (e : Int)
  | nan
  | snan
  | inf (neg : Bool)
deriving DecidableEq, Repr

/-- Finite-numeral part of the `Decimal` grammar after sign removal:
`digits* (. digits*)? ([eE] sign? digits+)?` with at least one
coefficient digit. Returns coefficient, fraction length and exponent. -/
def parseFin (l : List Char) : Option (Nat × Nat × Int) :=
  let ip := l.takeWhile Char.isDigit
  let r2 := l.dropWhile Char.isDigit
  match r2 with
  | '.' :: r3 =>
    let fp := r3.takeWhile Char.isDigit
    let r4 := r3.dropWhile Char.isDigit
    if ip.isEmpty && fp.isEmpty then none
    else (parseExpTail r4).map (fun e => (digitsToNat (ip ++ fp), fp.length, e))
  | _ =>
    if ip.isEmpty then none
    else (parseExpTail r2).map (fun e => (digitsToNat ip, 0, e))

/-- Embeds the numeric-string grammar of Python `Decimal(string)`:
surrounding whitespace is stripped and every underscore dropped (CPython
removes them wholesale before parsing), then an optional sign is followed
by a finite numeral, `Inf`/`Infinity`, or `NaN`/`sNaN` with an optional
digit payload, all case-insensitive; `none` models the
`InvalidOperation` the constructor raises on anything else. -/
def parseDecimal (l : List Char) : Option DecLit :=
  let s := (pyStrip l).filter (fun c => !(c == '_'))
  let sg := (parseSign s).1
  let r := (parseSign s).2
  let low := r.map Char.toLower
  if low == "inf".data || low == "infinity".data then
    some (DecLit.inf (decide (sg < 0)))
  else
    match low with
    | 'n' :: 'a' :: 'n' :: rest =>
      if rest.all Char.isDigit then some DecLit.nan else none
    | 's' :: 'n' :: 'a' :: 'n' :: rest =>
      if rest.all Char.isDigit then some DecLit.snan else none
    | _ => (parseFin r).map (fun t => DecLit.fin sg t.1 t.2.1 t.2.2)

/-- Value of a parsed `Decimal` literal; a finite numeral is worth
`sign * coefficient * 10 ^ (exponent - fraction length)`, exactly. -/
def decLitValue : DecLit → PyDec
  | .fin sg c f e => PyDec.fin ((sg : ℚ) * (c : ℚ) * (10 : ℚ) ^ (e - (f : Int)))
  | .nan => PyDec.nan
  | .snan => PyDec.snan
  | .inf b => PyDec.inf b

/-- Embeds Python `Decimal(string)`: the parsed value, or `none` when the
constructor raises `InvalidOperation`. -/
def decParse (l : List Char) : Option PyDec := (parseDecimal l).map decLitValue

/-- Embeds the locale disambiguation of `parse_amount` on the cleaned
string: with both comma and point present, every point is removed and
commas become decimal points; with only commas present they become
decimal points; otherwise the string is kept as is. -/
def commaDotsTransform (cleaned : List Char) : List Char :=
  if cleaned.contains ',' && cleaned.contains '.' then
    (cleaned.filter (fun c => !(c == '.'))).map (fun c => if c == ',' then '.' else c)
  else if cleaned.contains ',' then
    cleaned.map (fun c => if c == ',' then '.' else c)
  else cleaned

/-- Embeds `InvoiceProcessingService.parse_amount` on a string argument:
strip the currency symbols `€` and `$` and surrounding whitespace,
disambiguate the locale, parse as `Decimal`, and fall back to
`Decimal("0.0")` when the constructor raises. -/
def parse_amount (raw : List Char) : PyDec :=
  let cleaned := pyStrip (raw.filter (fun c => !(c == '€' || c == '$')))
  match decParse (commaDotsTransform cleaned) with
  | some v => v
  | none => PyDec.fin 0

/-- Numeral whose value `10 ^ 309` overflows double precision, followed by
a zero fractional part. -/
def hugeNumeral : List Char := '1' :: (List.replicate 309 '0' ++ ".0".data)

/-- Embeds the `InvoiceValidationError` dataclass: row index (−1 for
batch-level errors), field name, message and optional invoice id. -/
structure InvoiceValidationError where
  row_index : Int
  field_name : List Char
  error_message : List Char
  invoice_id : Option (List Char)
deriving DecidableEq, Repr

/-- Pandas dataframe as consumed by `validate_invoice_data`: column names
plus rows given as association lists from column name to cell text. -/
structure DataFrame where
  columns : List (List Char)
  rows : List (List ((List Char) × (List Char)))
deriving DecidableEq, Repr

/-- Embeds `row.get(col)`: the first cell under the column, if any. -/
def rowGet? (row : List ((List Char) × (List Char))) (col : List Char) :
    Option (List Char) :=
  (row.find? (fun p => p.1 == col)).map (fun p => p.2)

/-- Embeds `row.get(col, default)`. -/
def rowGetD (row : List ((List Char) × (List Char))) (col dflt : List Char) :
    List Char :=
  (rowGet? row col).getD dflt

/-- Python truthiness test `not value` on an optional cell: missing cells
and empty strings are falsy. -/
def falsyCell : Option (List Char) → Bool
  | none => true
  | some s => s.isEmpty

/-- Required header columns of `validate_invoice_data`. -/
def requiredFacturaCols : List (List Char) :=
  ["NumFactura".data, "empresa_emisora".data, "cliente_nombre".data]

/-- Required line-item columns of `validate_invoice_data`. -/
def requiredConceptosCols : List (List Char) :=
  ["NumFactura".data, "descripcion".data, "cantidad".data, "precio_unitario".data]

/-- Batch-level errors for the required columns absent from a dataframe,
with row index −1 and the source's message prefix. -/
def missingColErrors (df : DataFrame) (req : List (List Char))
    (pre : List Char) : List InvoiceValidationError :=
  req.filterMap (fun col =>
    if df.columns.contains col then none
    else some ⟨-1, col, pre ++ col, none⟩)

/-- Per-header-row checks of `validate_invoice_data`: empty normalized
identifier, empty issuer, empty customer, and no line item whose
normalized identifier matches — errors in source order. -/
def rowErrors (df_conceptos : DataFrame) (idx : Int)
    (row : List ((List Char) × (List Char))) : List InvoiceValidationError :=
  let invoice_id := normalize_invoice_id (rowGetD row "NumFactura".data [])
  let e1 : List InvoiceValidationError :=
    if invoice_id.isEmpty then
      [⟨idx, "NumFactura".data, "Número de factura vacío".data, none⟩] else []
  let e2 : List InvoiceValidationError :=
    if falsyCell (rowGet? row "empresa_emisora".data) then
      [⟨idx, "empresa_emisora".data, "Empresa emisora vacía".data, some invoice_id⟩]
    else []
  let e3 : List InvoiceValidationError :=
    if falsyCell (rowGet? row "cliente_nombre".data) then
      [⟨idx, "cliente_nombre".data, "Cliente vacío".data, some invoice_id⟩] else []
  let matching := df_conceptos.rows.filter (fun r =>
    normalize_invoice_id (rowGetD r "NumFactura".data []) == invoice_id)
  let e4 : List InvoiceValidationError :=
    if matching.length = 0 then
      [⟨idx, "conceptos".data, "La factura no tiene conceptos asociados".data,
        some invoice_id⟩]
    else []
  e1 ++ e2 ++ e3 ++ e4

/-- Embeds `InvoiceProcessingService.validate_invoice_data`: collect the
missing-column errors for both dataframes; when any exist, return them
with validity false (fail fast, no per-row checks); otherwise run the
per-row checks over the header rows in order, validity being the absence
of errors. -/
def validate_invoice_data (df_factura df_conceptos : DataFrame) :
    Bool × List InvoiceValidationError :=
  let errsF := missingColErrors df_factura requiredFacturaCols
    "Falta la columna requerida: ".data
  let errsC := missingColErrors df_conceptos requiredConceptosCols
    "Falta la columna requerida en conceptos: ".data
  let errs := errsF ++ errsC
  if errs.isEmpty then
    let rowErrs := (df_factura.rows.enum).foldl
      (fun acc p => acc ++ rowErrors df_conceptos (Int.ofNat p.1) p.2) []
    (rowErrs.isEmpty, rowErrs)
  else (false, errs)

end Invoice

namespace Invoice

lemma digitChar_isDigit {d : Nat} (h : d < 10) : (digitChar d).isDigit = true := by
  interval_cases d <;> decide

lemma digitVal_digitChar {d : Nat} (h : d < 10) : digitVal (digitChar d) = d := by
  interval_cases d <;> decide

lemma digit_not_ws {c : Char} (h : c.isDigit = true) : c.isWhitespace = false := by
  rcases Bool.eq_false_or_eq_true c.isWhitespace with hw | hw
  · exfalso
    have hc : ((c = ' ' ∨ c = '\t') ∨ c = '\r') ∨ c = '\n' := by
      simpa [Char.isWhitespace] using hw
    rcases hc with ((rfl | rfl) | rfl) | rfl <;> exact absurd h (by decide)
  · exact hw

lemma natReprAux_eq {fuel n : Nat} (h : n ≤ fuel) :
    natReprAux fuel n = ((Nat.digits 10 n).map digitChar).reverse := by
  induction fuel generalizing n with
  | zero =>
    interval_cases n
    simp [natReprAux]
  | succ f ih =>
    by_cases h0 : n = 0
    · subst h0; simp [natReprAux]
    · have hdiv : n / 10 < n := Nat.div_lt_self (Nat.pos_of_ne_zero h0) (by norm_num)
      rw [natReprAux, if_neg h0, ih (by omega),
        Nat.digits_def' (by norm_num : (1:ℕ) < 10) (Nat.pos_of_ne_zero h0)]
      simp [digitChar]

lemma natRepr_eq {n : Nat} (h : n ≠ 0) :
    natRepr n = ((Nat.digits 10 n).map digitChar).reverse := by
  rw [natRepr, if_neg h, natReprAux_eq (Nat.le_succ n)]

lemma natRepr_all_digits (n : Nat) : ∀ c ∈ natRepr n, c.isDigit = true := by
  by_cases h : n = 0
  · subst h; intro c hc
    simp [natRepr] at hc
    subst hc; decide
  · rw [natRepr_eq h]
    intro c hc
    rw [List.mem_reverse, List.mem_map] at hc
    obtain ⟨d, hd, rfl⟩ := hc
    exact digitChar_isDigit (Nat.digits_lt_base (by norm_num) hd)

lemma natRepr_ne_nil (n : Nat) : natRepr n ≠ [] := by
  by_cases h : n = 0
  · subst h; simp [natRepr]
  · rw [natRepr_eq h]
    simp [Nat.digits_ne_nil_iff_ne_zero, h]

lemma digitsToNat_append_singleton (xs : List Char) (c : Char) :
    digitsToNat (xs ++ [c]) = 10 * digitsToNat xs + digitVal c := by
  simp [digitsToNat, List.foldl_append]

lemma digitsToNat_reverse_map {L : List Nat} (h : ∀ d ∈ L, d < 10) :
    digitsToNat ((L.map digitChar).reverse) = Nat.ofDigits 10 L := by
  induction L with
  | nil => simp [digitsToNat, Nat.ofDigits]
  | cons d L ih =>
    rw [List.map_cons, List.reverse_cons, digitsToNat_append_singleton,
      ih (fun x hx => h x (List.mem_cons_of_mem d hx)),
      digitVal_digitChar (h d (List.mem_cons_self d L)), Nat.ofDigits_cons]
    omega

lemma natRepr_val (n : Nat) : digitsToNat (natRepr n) = n := by
  by_cases h : n = 0
  · subst h; decide
  · rw [natRepr_eq h,
      digitsToNat_reverse_map (fun d hd => Nat.digits_lt_base (by norm_num) hd),
      Nat.ofDigits_digits]

lemma log2_unique {n b : Nat} (h1 : 2 ^ b ≤ n) (h2 : n < 2 ^ (b + 1)) : n.log2 = b := by
  have hn : n ≠ 0 := by
    have : 0 < 2 ^ b := pow_pos (by norm_num) b
    omega
  have ha : b ≤ n.log2 := (Nat.le_log2 hn).mpr h1
  have hb : n.log2 < b + 1 := (Nat.log2_lt hn).mpr h2
  omega

lemma roundSig_fixed {Q K : Nat} (h1 : 2 ^ 52 ≤ Q) (h2 : Q < 2 ^ 53) (hK : 1 ≤ K) :
    roundSig (Q * 2 ^ K) = Q * 2 ^ K := by
  have h2kpos : 0 < 2 ^ K := pow_pos (by norm_num) K
  have hlog : (Q * 2 ^ K).log2 = 52 + K := by
    apply log2_unique
    · have e : (2:ℕ) ^ (52 + K) = 2 ^ 52 * 2 ^ K := pow_add 2 52 K
      rw [e]
      exact Nat.mul_le_mul_right _ h1
    · have hlt : Q * 2 ^ K < 2 ^ 53 * 2 ^ K := mul_lt_mul_of_pos_right h2 h2kpos
      have e : (2:ℕ) ^ 53 * 2 ^ K = 2 ^ (52 + K + 1) := by
        rw [← pow_add]
        congr 1
        omega
      exact e ▸ hlt
  have hdiv : Q * 2 ^ K / 2 ^ K = Q := Nat.mul_div_cancel Q h2kpos
  have hmod : Q * 2 ^ K % 2 ^ K = 0 := Nat.mul_mod_left Q (2 ^ K)
  have hk52 : 52 + K - 52 = K := by omega
  simp only [roundSig, hlog, hk52, hdiv, hmod]
  rw [if_neg (by omega)]

lemma intOfFloatNat_idem {n m : Nat} (h : intOfFloatNat n = some m) :
    intOfFloatNat m = some m := by
  unfold intOfFloatNat at h
  by_cases h1 : n < 2 ^ 53
  · rw [if_pos h1] at h
    obtain rfl : n = m := by injection h
    rw [intOfFloatNat, if_pos h1]
  · rw [if_neg h1] at h
    by_cases h2 : maxFloatThreshold ≤ n
    · rw [if_pos h2] at h; cases h
    · rw [if_neg h2] at h
      have hm : roundSig n = m := by injection h
      have h53 : 2 ^ 53 ≤ n := le_of_not_lt h1
      have hn0 : n ≠ 0 := by
        have : (0:ℕ) < 2 ^ 53 := by norm_num
        omega
      have hb1 : 2 ^ n.log2 ≤ n := (Nat.le_log2 hn0).mp (le_refl _)
      have hb2 : n < 2 ^ (n.log2 + 1) := (Nat.log2_lt hn0).mp (Nat.lt_succ_self _)
      have hb53 : 53 ≤ n.log2 := (Nat.le_log2 hn0).mpr h53
      set b := n.log2 with hbdef
      set k := b - 52 with hkdef
      have hk1 : 1 ≤ k := by omega
      have hbk : b = k + 52 := by omega
      have h2kpos : 0 < 2 ^ k := pow_pos (by norm_num) k
      set q := n / 2 ^ k with hqdef
      set r := n % 2 ^ k with hrdef
      have hq1 : 2 ^ 52 ≤ q := by
        rw [hqdef, Nat.le_div_iff_mul_le h2kpos]
        calc 2 ^ 52 * 2 ^ k = 2 ^ b := by rw [← pow_add]; congr 1; omega
          _ ≤ n := hb1
      have hq2 : q < 2 ^ 53 := by
        rw [hqdef, Nat.div_lt_iff_lt_mul h2kpos]
        calc n < 2 ^ (b + 1) := hb2
          _ = 2 ^ 53 * 2 ^ k := by rw [← pow_add]; congr 1; omega
      have hqr : n = q * 2 ^ k + r := by
        rw [Nat.mul_comm]
        exact (Nat.div_add_mod n (2 ^ k)).symm
      have hrlt : r < 2 ^ k := Nat.mod_lt n h2kpos
      have hT : maxFloatThreshold = 2 ^ 1024 - 2 ^ 970 := rfl
      have hble : b ≤ 1023 := by
        by_contra hgt
        have h24 : (2:ℕ) ^ 1024 ≤ 2 ^ b := Nat.pow_le_pow_right (by norm_num) (by omega)
        have h70 : (2:ℕ) ^ 970 < 2 ^ 1024 := Nat.pow_lt_pow_right (by norm_num) (by omega)
        omega
      have hrs : roundSig n =
          if 2 ^ k < 2 * r ∨ (2 * r = 2 ^ k ∧ q % 2 = 1) then (q + 1) * 2 ^ k
          else q * 2 ^ k := by
        simp only [roundSig, ← hbdef, ← hkdef, ← hqdef, ← hrdef]
      -- the top binade needs the no-overflow hypothesis to bound q
      have htop : b = 1023 → (2 ^ k ≤ 2 * r) → q + 2 ≤ 2 ^ 53 := by
        intro htb hcr
        by_contra hq
        have hqeq : q + 1 = 2 ^ 53 := by omega
        have hkeq : k = 971 := by omega
        apply h2
        rw [hT]
        have hn2 : n = q * 2 ^ 971 + r := by rw [hqr, hkeq]
        have hd : (q + 1) * (2:ℕ) ^ 971 = q * 2 ^ 971 + 2 ^ 971 := by ring
        have e1 : (q + 1) * (2:ℕ) ^ 971 = 2 ^ 1024 := by
          rw [hqeq, ← pow_add]
        have e2 : (2:ℕ) ^ 971 = 2 * 2 ^ 970 := by norm_num
        have hr970 : 2 ^ 970 ≤ r := by
          rw [hkeq] at hcr
          omega
        omega
      have hmlow : 2 ^ 53 ≤ q * 2 ^ k := by
        calc (2:ℕ) ^ 53 = 2 ^ 52 * 2 ^ 1 := by norm_num
          _ ≤ q * 2 ^ k :=
            Nat.mul_le_mul hq1 (Nat.pow_le_pow_right (by norm_num) hk1)
      have hfix : ∀ x : Nat, 2 ^ 53 ≤ x → x < maxFloatThreshold → roundSig x = x →
          intOfFloatNat x = some x := by
        intro x hx1 hx2 hx3
        rw [intOfFloatNat, if_neg (by omega), if_neg (by omega), hx3]
      rw [hrs] at hm
      by_cases hcond : 2 ^ k < 2 * r ∨ (2 * r = 2 ^ k ∧ q % 2 = 1)
      · rw [if_pos hcond] at hm
        have hcr : 2 ^ k ≤ 2 * r := by omega
        have hm53 : 2 ^ 53 ≤ m := by
          rw [← hm]
          calc (2:ℕ) ^ 53 ≤ q * 2 ^ k := hmlow
            _ ≤ (q + 1) * 2 ^ k := Nat.mul_le_mul_right _ (Nat.le_succ q)
        have hmT : m < maxFloatThreshold := by
          by_cases hble2 : b ≤ 1022
          · have hup : m ≤ 2 ^ 1023 := by
              rw [← hm]
              calc (q + 1) * 2 ^ k ≤ 2 ^ 53 * 2 ^ k := Nat.mul_le_mul_right _ (by omega)
                _ = 2 ^ (53 + k) := by rw [← pow_add]
                _ ≤ 2 ^ 1023 := Nat.pow_le_pow_right (by norm_num) (by omega)
            have hlt : (2:ℕ) ^ 1023 < 2 ^ 1024 - 2 ^ 970 := by
              have ha : (2:ℕ) ^ 1024 = 2 ^ 1023 * 2 := by rw [← pow_succ]
              have hc : (2:ℕ) ^ 970 < 2 ^ 1023 := Nat.pow_lt_pow_right (by norm_num) (by omega)
              omega
            rw [hT]; omega
          · have htb : b = 1023 := by omega
            have hkeq : k = 971 := by omega
            have hqle : q + 2 ≤ 2 ^ 53 := htop htb hcr
            rw [hT, ← hm, hkeq]
            have e1 : (q + 1) * 2 ^ 971 + 2 ^ 971 = (q + 2) * 2 ^ 971 := by ring
            have e2 : (q + 2) * 2 ^ 971 ≤ 2 ^ 53 * 2 ^ 971 :=
              Nat.mul_le_mul_right _ hqle
            have e3 : (2:ℕ) ^ 53 * 2 ^ 971 = 2 ^ 1024 := by rw [← pow_add]
            have e4 : (2:ℕ) ^ 971 = 2 * 2 ^ 970 := by norm_num
            omega
        by_cases hq3 : q + 1 < 2 ^ 53
        · have : roundSig m = m := by
            rw [← hm]
            exact roundSig_fixed (le_trans hq1 (Nat.le_succ q)) hq3 hk1
          exact hfix m hm53 hmT this
        · have hq4 : q + 1 = 2 ^ 53 := by omega
          have hmeq : m = 2 ^ 52 * 2 ^ (k + 1) := by
            rw [← hm, hq4, pow_succ]
            ring
          have : roundSig m = m := by
            rw [hmeq]
            exact roundSig_fixed (le_refl _) (by norm_num) (by omega)
          exact hfix m hm53 hmT this
      · rw [if_neg hcond] at hm
        have hm53 : 2 ^ 53 ≤ m := by rw [← hm]; exact hmlow
        have hmT : m < maxFloatThreshold := by
          have : m ≤ n := by rw [← hm]; omega
          omega
        have : roundSig m = m := by
          rw [← hm]
          exact roundSig_fixed hq1 hq2 hk1
        exact hfix m hm53 hmT this

lemma pyStrip_eq (l : List Char) :
    pyStrip l = (l.dropWhile Char.isWhitespace).rdropWhile Char.isWhitespace := rfl

lemma dropWhile_eq_self_of_isPrefix {α : Type} {p : α → Bool} {A m : List α}
    (hA : A.dropWhile p = A) (hm : m <+: A) : m.dropWhile p = m := by
  rw [List.dropWhile_eq_self_iff] at hA ⊢
  intro h0
  obtain ⟨t, ht⟩ := hm
  subst ht
  have hlen : 0 < (m ++ t).length := by
    rw [List.length_append]
    omega
  have hget : (m ++ t).get ⟨0, hlen⟩ = m.get ⟨0, h0⟩ := by
    rw [List.get_eq_getElem, List.get_eq_getElem]
    exact List.getElem_append_left h0
  have := hA hlen
  rw [hget] at this
  exact this

lemma pyStrip_idem (l : List Char) : pyStrip (pyStrip l) = pyStrip l := by
  rw [pyStrip_eq, pyStrip_eq]
  have hA : (l.dropWhile Char.isWhitespace).dropWhile Char.isWhitespace =
      l.dropWhile Char.isWhitespace := List.dropWhile_idempotent _ _
  have hm := List.rdropWhile_prefix Char.isWhitespace (l.dropWhile Char.isWhitespace)
  rw [dropWhile_eq_self_of_isPrefix hA hm, List.rdropWhile_idempotent]

lemma pyStrip_eq_self {l : List Char} (h : ∀ c ∈ l, c.isWhitespace = false) :
    pyStrip l = l := by
  rw [pyStrip_eq]
  have h1 : l.dropWhile Char.isWhitespace = l := by
    rw [List.dropWhile_eq_self_iff]
    intro hl
    simp only [List.get_eq_getElem]
    simp [h _ (List.getElem_mem _)]
  rw [h1, List.rdropWhile_eq_self_iff]
  intro hl
  simp [h _ (l.getLast_mem hl)]

lemma numPat_of_digits {l : List Char} (h : ∀ c ∈ l, c.isDigit = true)
    (hne : l ≠ []) : numPat l = true ∧ l.takeWhile Char.isDigit = l := by
  have ht : l.takeWhile Char.isDigit = l := List.takeWhile_eq_self_iff.mpr h
  have hd : l.dropWhile Char.isDigit = [] := List.dropWhile_eq_nil_iff.mpr h
  refine ⟨?_, ht⟩
  simp [numPat, ht, hd, hne]

lemma normalize_invoice_id_of_pat_false {x : List Char}
    (hp : numPat (pyStrip x) = false) : normalize_invoice_id x = pyStrip x := by
  simp [normalize_invoice_id, hp]

lemma normalize_invoice_id_of_some {x : List Char} {m : Nat}
    (hp : numPat (pyStrip x) = true)
    (hio : intOfFloatNat (digitsToNat ((pyStrip x).takeWhile Char.isDigit)) = some m) :
    normalize_invoice_id x = natRepr m := by
  simp [normalize_invoice_id, hp, hio]

lemma normalize_invoice_id_of_none {x : List Char}
    (hp : numPat (pyStrip x) = true)
    (hio : intOfFloatNat (digitsToNat ((pyStrip x).takeWhile Char.isDigit)) = none) :
    normalize_invoice_id x = pyStrip x := by
  simp [normalize_invoice_id, hp, hio]

end Invoice

set_option maxRecDepth 40000

open Invoice in
/-- C8: `normalize_invoice_id` is idempotent — applying it to its own
result returns the same string, for every input string. -/
theorem normalize_invoice_id_idem (x : List Char) :
    Invoice.normalize_invoice_id (Invoice.normalize_invoice_id x) =
      Invoice.normalize_invoice_id x := by
  by_cases hp : numPat (pyStrip x) = true
  · cases hio : intOfFloatNat (digitsToNat ((pyStrip x).takeWhile Char.isDigit)) with
    | none =>
      rw [normalize_invoice_id_of_none hp hio]
      have hs : pyStrip (pyStrip x) = pyStrip x := pyStrip_idem x
      rw [normalize_invoice_id_of_none (x := pyStrip x) (by rw [hs]; exact hp)
        (by rw [hs]; exact hio), hs]
    | some m =>
      rw [normalize_invoice_id_of_some hp hio]
      have hdig := natRepr_all_digits m
      have hne := natRepr_ne_nil m
      have hstrip : pyStrip (natRepr m) = natRepr m :=
        pyStrip_eq_self (fun c hc => digit_not_ws (hdig c hc))
      obtain ⟨hnp, htk⟩ := numPat_of_digits hdig hne
      have hval : digitsToNat ((pyStrip (natRepr m)).takeWhile Char.isDigit) = m := by
        rw [hstrip, htk, natRepr_val]
      have hio2 : intOfFloatNat m = some m := intOfFloatNat_idem hio
      rw [normalize_invoice_id_of_some (x := natRepr m) (by rw [hstrip]; exact hnp)
        (by rw [hval]; exact hio2)]
  · have hp2 : numPat (pyStrip x) = false := by
      rcases Bool.eq_false_or_eq_true (numPat (pyStrip x)) with h | h
      · exact absurd h hp
      · exact h
    rw [normalize_invoice_id_of_pat_false hp2]
    have hs : pyStrip (pyStrip x) = pyStrip x := pyStrip_idem x
    rw [normalize_invoice_id_of_pat_false (x := pyStrip x) (by rw [hs]; exact hp2), hs]

open Invoice in
/-- C7 (counterexample): on the numeral `10 ^ 309` followed by `.0` —
which fully matches the integer-with-zero-fraction pattern — the source's
`int(float(s))` overflows, the exception is caught, and the stripped
input is returned unchanged, fractional suffix included: the result is
not an integer string with no fractional part. -/
theorem normalize_invoice_id_overflow_keeps_fraction :
    Invoice.numPat (Invoice.pyStrip Invoice.hugeNumeral) = true ∧
    Invoice.normalize_invoice_id Invoice.hugeNumeral = Invoice.hugeNumeral ∧
    '.' ∈ Invoice.normalize_invoice_id Invoice.hugeNumeral := by
  refine ⟨by decide, by decide, by decide⟩

open Invoice in
/-- C7 (amended): `normalize_invoice_id` never fails and behaves as
follows. When the stripped textual form matches an integer optionally
followed by a zero fractional part and its value is below `2 ^ 53`, it
returns exactly the decimal digits of that integer (in particular
"25042", "25042.0", "25042.00" all map to "25042"); matching values from
`2 ^ 53` up to the double-precision range are first rounded to the
nearest IEEE-754 double; matching values beyond that range overflow and
the stripped input is returned unchanged (fractional suffix included);
non-matching inputs are returned stripped but otherwise unchanged
(e.g. "Int_25003" maps to itself). -/
theorem normalize_invoice_id_spec :
    (∀ x : List Char,
      Invoice.numPat (Invoice.pyStrip x) = true →
      Invoice.digitsToNat ((Invoice.pyStrip x).takeWhile Char.isDigit) < 2 ^ 53 →
      Invoice.normalize_invoice_id x =
        Invoice.natRepr (Invoice.digitsToNat ((Invoice.pyStrip x).takeWhile Char.isDigit)) ∧
      Invoice.digitsToNat (Invoice.normalize_invoice_id x) =
        Invoice.digitsToNat ((Invoice.pyStrip x).takeWhile Char.isDigit) ∧
      ∀ c ∈ Invoice.normalize_invoice_id x, c.isDigit = true) ∧
    (∀ x : List Char,
      Invoice.numPat (Invoice.pyStrip x) = true →
      2 ^ 53 ≤ Invoice.digitsToNat ((Invoice.pyStrip x).takeWhile Char.isDigit) →
      Invoice.digitsToNat ((Invoice.pyStrip x).takeWhile Char.isDigit) <
        Invoice.maxFloatThreshold →
      Invoice.normalize_invoice_id x =
        Invoice.natRepr
          (Invoice.roundSig (Invoice.digitsToNat ((Invoice.pyStrip x).takeWhile Char.isDigit)))) ∧
    (∀ x : List Char,
      Invoice.numPat (Invoice.pyStrip x) = true →
      Invoice.maxFloatThreshold ≤
        Invoice.digitsToNat ((Invoice.pyStrip x).takeWhile Char.isDigit) →
      Invoice.normalize_invoice_id x = Invoice.pyStrip x) ∧
    (∀ x : List Char,
      Invoice.numPat (Invoice.pyStrip x) = false →
      Invoice.normalize_invoice_id x = Invoice.pyStrip x) ∧
    Invoice.normalize_invoice_id "25042".data = "25042".data ∧
    Invoice.normalize_invoice_id "25042.0".data = "25042".data ∧
    Invoice.normalize_invoice_id "25042.00".data = "25042".data ∧
    Invoice.normalize_invoice_id "Int_25003".data = "Int_25003".data := by
  refine ⟨?_, ?_, ?_, ?_, by decide, by decide, by decide, by decide⟩
  · intro x hp hv
    have hio : intOfFloatNat (digitsToNat ((pyStrip x).takeWhile Char.isDigit)) =
        some (digitsToNat ((pyStrip x).takeWhile Char.isDigit)) := by
      rw [intOfFloatNat, if_pos hv]
    have h1 := normalize_invoice_id_of_some hp hio
    exact ⟨h1, by rw [h1, natRepr_val], by rw [h1]; exact natRepr_all_digits _⟩
  · intro x hp hv1 hv2
    have hio : intOfFloatNat (digitsToNat ((pyStrip x).takeWhile Char.isDigit)) =
        some (roundSig (digitsToNat ((pyStrip x).takeWhile Char.isDigit))) := by
      rw [intOfFloatNat, if_neg (by omega), if_neg (by omega)]
    exact normalize_invoice_id_of_some hp hio
  · intro x hp hv
    have hio : intOfFloatNat (digitsToNat ((pyStrip x).takeWhile Char.isDigit)) = none := by
      have h53 : (2:ℕ) ^ 53 < Invoice.maxFloatThreshold := by norm_num [Invoice.maxFloatThreshold]
      rw [intOfFloatNat, if_neg (by omega), if_pos hv]
    exact normalize_invoice_id_of_none hp hio
  · intro x hp
    exact normalize_invoice_id_of_pat_false hp

/-- C7 (witness): the first branch of `normalize_invoice_id_spec`
instantiated at the concrete input "25042.0". -/
theorem normalize_invoice_id_spec_witness :
    Invoice.numPat (Invoice.pyStrip "25042.0".data) = true ∧
    Invoice.digitsToNat ((Invoice.pyStrip "25042.0".data).takeWhile Char.isDigit) < 2 ^ 53 ∧
    Invoice.normalize_invoice_id "25042.0".data =
      Invoice.natRepr
        (Invoice.digitsToNat ((Invoice.pyStrip "25042.0".data).takeWhile Char.isDigit)) :=
  ⟨by decide, by decide, (normalize_invoice_id_spec.1 "25042.0".data (by decide) (by decide)).1⟩

namespace Offline

lemma find?_map_update {table : List Row} {qid : Nat} {g : Row → Row}
    (hg : ∀ r, (g r).id = r.id) :
    (table.map (fun r => if r.id = qid then g r else r)).find? (fun r => r.id == qid) =
      (table.find? (fun r => r.id == qid)).map (fun r => if r.id = qid then g r else r) := by
  induction table with
  | nil => rfl
  | cons r rest ih =>
    by_cases hr : r.id = qid
    · rw [List.map_cons, List.find?_cons_of_pos, List.find?_cons_of_pos]
      · simp [hr]
      · simp [hr]
      · simp [if_pos hr, hg, hr]
    · rw [List.map_cons, List.find?_cons_of_neg, List.find?_cons_of_neg, ih]
      · simp [hr]
      · simp [if_neg hr, hr]

lemma findRow_markAsFailed {db : DB} {qid : Nat} {r : Row} (err : String)
    (mr t : Nat) (h : findRow db qid = some r) :
    findRow (markAsFailed db qid err mr t) qid =
      some { r with intentos := r.intentos + 1,
                    estado := if mr ≤ r.intentos + 1 then "FALLIDO" else "PENDIENTE",
                    ultimo_intento := some t } ∧
    (markAsFailed db qid err mr t).log =
      db.log ++ [failLog qid (if mr ≤ r.intentos + 1 then "FALLIDO" else "PENDIENTE")
        (r.intentos + 1) mr err] := by
  have hfind : db.table.find? (fun x => x.id == qid) = some r := h
  have hrid : r.id = qid := by
    have := List.find?_some hfind
    simpa using this
  have hrw : (db.table.map (fun x => if x.id = qid then { x with intentos := r.intentos + 1, ultimo_intento := some t, estado := if mr ≤ r.intentos + 1 then "FALLIDO" else "PENDIENTE" } else x)).find? (fun x => x.id == qid) = (db.table.find? (fun x => x.id == qid)).map (fun x => if x.id = qid then { x with intentos := r.intentos + 1, ultimo_intento := some t, estado := if mr ≤ r.intentos + 1 then "FALLIDO" else "PENDIENTE" } else x) := find?_map_update (fun x => rfl)
  constructor
  · show (markAsFailed db qid err mr t).table.find? (fun x => x.id == qid) = _
    rw [markAsFailed, hfind]
    simp only
    rw [hrw, hfind]
    simp [if_pos hrid]
  · rw [markAsFailed, hfind]

end Offline

/-- C1: items created by `add_to_queue` start PENDING with 0 attempts;
each `mark_as_failed` with `max_retries = 3` increments the attempt
counter, records the last-attempt time on the row and the error message in
the emitted log entry, and moves the item to FALLIDO exactly when the
incremented counter reaches 3, leaving it PENDIENTE otherwise. In
particular enqueue followed by three failures ends FALLIDO with 3
attempts, and enqueue, two failures, then `mark_as_sent` ends ENVIADO. -/
theorem offline_mark_failed_spec :
    (∀ (db : Offline.DB) (qid : Nat) (err : String) (t : Nat) (r : Offline.Row),
      Offline.findRow db qid = some r →
      Offline.findRow (Offline.markAsFailed db qid err 3 t) qid =
        some { r with intentos := r.intentos + 1,
                      estado := if 3 ≤ r.intentos + 1 then "FALLIDO" else "PENDIENTE",
                      ultimo_intento := some t } ∧
      (Offline.markAsFailed db qid err 3 t).log =
        db.log ++ [Offline.failLog qid
          (if 3 ≤ r.intentos + 1 then "FALLIDO" else "PENDIENTE") (r.intentos + 1) 3 err]) ∧
    (∀ (xml : List Nat) (a b c d e : String) (t0 t1 t2 t3 : Nat) (e1 e2 e3 : String),
      Offline.findRow
        (Offline.markAsFailed
          (Offline.markAsFailed
            (Offline.markAsFailed
              (Offline.addToQueue Offline.emptyDB xml a b c d e t0).1
              1 e1 3 t1)
            1 e2 3 t2)
          1 e3 3 t3) 1 =
        some ⟨1, xml, a, b, c, d, e, t0, 3, some t3, "FALLIDO"⟩) ∧
    (∀ (xml : List Nat) (a b c d e : String) (t0 t1 t2 t3 : Nat) (e1 e2 : String),
      Offline.findRow
        (Offline.markAsSent
          (Offline.markAsFailed
            (Offline.markAsFailed
              (Offline.addToQueue Offline.emptyDB xml a b c d e t0).1
              1 e1 3 t1)
            1 e2 3 t2)
          1 t3) 1 =
        some ⟨1, xml, a, b, c, d, e, t0, 2, some t3, "ENVIADO"⟩) := by
  refine ⟨?_, ?_, ?_⟩
  · intro db qid err t r h
    exact Offline.findRow_markAsFailed err 3 t h
  · intro xml a b c d e t0 t1 t2 t3 e1 e2 e3
    rfl
  · intro xml a b c d e t0 t1 t2 t3 e1 e2
    rfl

/-- C1 (witness): the per-call part of `offline_mark_failed_spec`
instantiated on a concrete one-item queue. -/
theorem offline_mark_failed_spec_witness :
    Offline.findRow
        ⟨[⟨1, [], "f", "e", "x", "d", "k", 0, 0, none, "PENDIENTE"⟩], 2, []⟩ 1 =
      some ⟨1, [], "f", "e", "x", "d", "k", 0, 0, none, "PENDIENTE"⟩ ∧
    Offline.findRow
        (Offline.markAsFailed
          ⟨[⟨1, [], "f", "e", "x", "d", "k", 0, 0, none, "PENDIENTE"⟩], 2, []⟩ 1 "err" 3 7) 1 =
      some ⟨1, [], "f", "e", "x", "d", "k", 0, 1, some 7, "PENDIENTE"⟩ :=
  ⟨by decide,
   by
    have h := (offline_mark_failed_spec.1
      ⟨[⟨1, [], "f", "e", "x", "d", "k", 0, 0, none, "PENDIENTE"⟩], 2, []⟩ 1 "err" 7
      ⟨1, [], "f", "e", "x", "d", "k", 0, 0, none, "PENDIENTE"⟩ (by decide)).1
    exact h⟩

/-- C2 (counterexample): `mark_as_sent` and `mark_as_failed` update by id
with no condition on the current state, so a FALLIDO item is flipped to
ENVIADO by `mark_as_sent`, and an ENVIADO item is sent back to PENDIENTE
by `mark_as_failed` — SENT and FAILED are not terminal under direct calls. -/
theorem offline_terminal_states_violated :
    Offline.findRow
        (Offline.markAsSent
          ⟨[⟨1, [], "f", "e", "x", "d", "k", 0, 3, some 2, "FALLIDO"⟩], 2, []⟩ 1 5) 1 =
      some ⟨1, [], "f", "e", "x", "d", "k", 0, 3, some 5, "ENVIADO"⟩ ∧
    Offline.findRow
        (Offline.markAsFailed
          ⟨[⟨1, [], "f", "e", "x", "d", "k", 0, 0, some 2, "ENVIADO"⟩], 2, []⟩ 1 "err" 3 5) 1 =
      some ⟨1, [], "f", "e", "x", "d", "k", 0, 1, some 5, "PENDIENTE"⟩ ∧
    ("ENVIADO" : String) ≠ "FALLIDO" ∧ ("PENDIENTE" : String) ≠ "ENVIADO" := by
  refine ⟨by decide, by decide, by decide, by decide⟩

/-- C2 (amended): a SENT or FAILED item is never modified by `add_to_queue`,
by `clear_sent_items` (which deletes ENVIADO rows outright and keeps
FALLIDO rows untouched), or by `mark_as_sent` / `mark_as_failed` aimed at a
different item id; but those two operations carry no state guard, so
applied directly to the item's own id they do change its state
(see the counterexample). -/
theorem offline_terminal_states_spec :
    (∀ (db : Offline.DB) (xml : List Nat) (a b c d e : String) (t : Nat)
      (r : Offline.Row), r ∈ db.table →
        r ∈ (Offline.addToQueue db xml a b c d e t).1.table) ∧
    (∀ (db : Offline.DB) (r : Offline.Row), r ∈ db.table → r.estado = "FALLIDO" →
        r ∈ (Offline.clearSentItems db).1.table) ∧
    (∀ (db : Offline.DB) (r : Offline.Row), r ∈ (Offline.clearSentItems db).1.table →
        r ∈ db.table) ∧
    (∀ (db : Offline.DB) (qid t : Nat) (r : Offline.Row), r ∈ db.table → r.id ≠ qid →
        r ∈ (Offline.markAsSent db qid t).table) ∧
    (∀ (db : Offline.DB) (qid : Nat) (err : String) (mr t : Nat) (r : Offline.Row),
      r ∈ db.table → r.id ≠ qid →
        r ∈ (Offline.markAsFailed db qid err mr t).table) := by
  refine ⟨?_, ?_, ?_, ?_, ?_⟩
  · intro db xml a b c d e t r hr
    exact List.mem_append_left _ hr
  · intro db r hr hst
    apply List.mem_filter.mpr
    refine ⟨hr, ?_⟩
    rw [hst]
    decide
  · intro db r hr
    exact List.mem_of_mem_filter hr
  · intro db qid t r hr hne
    simp only [Offline.markAsSent]
    refine List.mem_map.mpr ⟨r, hr, ?_⟩
    rw [if_neg hne]
  · intro db qid err mr t r hr hne
    rw [Offline.markAsFailed]
    cases hfind : db.table.find? (fun x => x.id == qid) with
    | none => exact hr
    | some row =>
      simp only
      refine List.mem_map.mpr ⟨r, hr, ?_⟩
      rw [if_neg hne]

/-- C2 (witness): preservation statements of `offline_terminal_states_spec`
instantiated on a concrete queue holding one ENVIADO and one FALLIDO item. -/
theorem offline_terminal_states_spec_witness :
    (⟨2, [], "g", "e", "x", "d", "k", 0, 3, some 2, "FALLIDO"⟩ : Offline.Row) ∈
      (Offline.clearSentItems
        ⟨[⟨1, [], "f", "e", "x", "d", "k", 0, 1, some 2, "ENVIADO"⟩,
          ⟨2, [], "g", "e", "x", "d", "k", 0, 3, some 2, "FALLIDO"⟩], 3, []⟩).1.table ∧
    (⟨1, [], "f", "e", "x", "d", "k", 0, 1, some 2, "ENVIADO"⟩ : Offline.Row) ∈
      (Offline.markAsSent
        ⟨[⟨1, [], "f", "e", "x", "d", "k", 0, 1, some 2, "ENVIADO"⟩,
          ⟨2, [], "g", "e", "x", "d", "k", 0, 0, none, "PENDIENTE"⟩], 3, []⟩ 2 9).table :=
  ⟨offline_terminal_states_spec.2.1
      ⟨[⟨1, [], "f", "e", "x", "d", "k", 0, 1, some 2, "ENVIADO"⟩,
        ⟨2, [], "g", "e", "x", "d", "k", 0, 3, some 2, "FALLIDO"⟩], 3, []⟩
      ⟨2, [], "g", "e", "x", "d", "k", 0, 3, some 2, "FALLIDO"⟩ (by decide) (by decide),
   offline_terminal_states_spec.2.2.2.1
      ⟨[⟨1, [], "f", "e", "x", "d", "k", 0, 1, some 2, "ENVIADO"⟩,
        ⟨2, [], "g", "e", "x", "d", "k", 0, 0, none, "PENDIENTE"⟩], 3, []⟩ 2 9
      ⟨1, [], "f", "e", "x", "d", "k", 0, 1, some 2, "ENVIADO"⟩ (by decide) (by decide)⟩

namespace Offline

lemma pendingBound_applyOp {db : DB} (h : PendingBound db) (op : Op) :
    PendingBound (applyOp db op) := by
  cases op with
  | enqueue xml a b c d e t =>
    intro r hr hp
    rcases List.mem_append.mp hr with hold | hnew
    · exact h r hold hp
    · have : r.intentos = 0 := by
        rcases List.mem_singleton.mp hnew with rfl
        rfl
      omega
  | markSent qid t =>
    intro r hr hp
    rcases List.mem_map.mp hr with ⟨x, hx, hxr⟩
    by_cases hid : x.id = qid
    · rw [if_pos hid] at hxr
      subst hxr
      simp at hp
    · rw [if_neg hid] at hxr
      subst hxr
      exact h x hx hp
  | markFailed qid err t =>
    show PendingBound (markAsFailed db qid err 3 t)
    rw [markAsFailed]
    cases hfind : db.table.find? (fun x => x.id == qid) with
    | none => exact h
    | some row =>
      simp only
      intro r hr hp
      rcases List.mem_map.mp hr with ⟨x, hx, hxr⟩
      by_cases hid : x.id = qid
      · rw [if_pos hid] at hxr
        subst hxr
        by_cases hcnt : 3 ≤ row.intentos + 1
        · rw [if_pos hcnt] at hp
          simp at hp
        · show row.intentos + 1 < 3
          omega
      · rw [if_neg hid] at hxr
        subst hxr
        exact h x hx hp
  | clearSent =>
    intro r hr hp
    exact h r (List.mem_of_mem_filter hr) hp

lemma pendingBound_runOps {db : DB} (h : PendingBound db) (ops : List Op) :
    PendingBound (runOps db ops) := by
  induction ops generalizing db with
  | nil => exact h
  | cons op ops ih =>
    rw [runOps, List.foldl_cons]
    exact ih (pendingBound_applyOp h op)

end Offline

/-- C10: starting from an empty queue, under any sequence of enqueue,
mark-sent and mark-failed operations (mark-failed with the default
`max_retries = 3`, and clears allowed as well), every row whose state is
PENDIENTE has strictly fewer than 3 attempts. -/
theorem offline_pending_attempts_bound (ops : List Offline.Op)
    (r : Offline.Row) (hr : r ∈ (Offline.runOps Offline.emptyDB ops).table)
    (hp : r.estado = "PENDIENTE") : r.intentos < 3 :=
  Offline.pendingBound_runOps (by intro r hr hp; cases hr) ops r hr hp

/-- C10 (witness): the invariant applied to the concrete run
enqueue-then-one-failure, whose surviving row is PENDIENTE with 1 attempt. -/
theorem offline_pending_attempts_bound_witness :
    (⟨1, [], "f", "e", "x", "d", "k", 0, 1, some 4, "PENDIENTE"⟩ : Offline.Row) ∈
      (Offline.runOps Offline.emptyDB
        [Offline.Op.enqueue [] "f" "e" "x" "d" "k" 0,
         Offline.Op.markFailed 1 "err" 4]).table ∧
    (1 : Nat) < 3 :=
  ⟨by decide,
   offline_pending_attempts_bound
    [Offline.Op.enqueue [] "f" "e" "x" "d" "k" 0, Offline.Op.markFailed 1 "err" 4]
    ⟨1, [], "f", "e", "x", "d", "k", 0, 1, some 4, "PENDIENTE"⟩ (by decide) (by decide)⟩

/-- C9 (counterexample): the code computes a percentage — on a history
snapshot with 2 total and 1 successful send, `success_rate` is 50, not the
ratio 1/2 the claim states. -/
theorem history_success_rate_not_ratio :
    History.HistoryStats.success_rate ⟨2, 1, 0, 1, 0⟩ = 50 ∧
    History.HistoryStats.success_rate ⟨2, 1, 0, 1, 0⟩ ≠ (1 : ℚ) / 2 := by
  constructor
  · norm_num [History.HistoryStats.success_rate]
  · norm_num [History.HistoryStats.success_rate]

/-- C9 (amended): `success_rate` is 0 when the total count is 0 (no
division by zero on an empty history), and otherwise equals the quotient
of successful by total sends multiplied by 100 (a percentage). -/
theorem history_success_rate_spec (s : History.HistoryStats) :
    (s.total_invoices = 0 → s.success_rate = 0) ∧
    (s.total_invoices ≠ 0 →
      s.success_rate = ((s.successful_invoices : ℚ) / (s.total_invoices : ℚ)) * 100) := by
  constructor
  · intro h
    rw [History.HistoryStats.success_rate, if_pos h]
  · intro h
    rw [History.HistoryStats.success_rate, if_neg h]

/-- C9 (witness): `history_success_rate_spec` instantiated at an empty
history and at the concrete 2-total/1-successful snapshot. -/
theorem history_success_rate_spec_witness :
    History.HistoryStats.success_rate ⟨0, 0, 0, 0, 0⟩ = 0 ∧
    History.HistoryStats.success_rate ⟨2, 1, 0, 1, 0⟩ = ((1 : ℚ) / (2 : ℚ)) * 100 :=
  ⟨(history_success_rate_spec ⟨0, 0, 0, 0, 0⟩).1 rfl,
   by
    have h := (history_success_rate_spec ⟨2, 1, 0, 1, 0⟩).2 (by decide)
    simpa using h⟩

namespace Invoice

lemma parse_amount_of_some {raw : List Char} {v : PyDec}
    (h : decParse (commaDotsTransform (pyStrip
      (raw.filter (fun c => !(c == '€' || c == '$'))))) = some v) :
    parse_amount raw = v := by
  simp only [parse_amount]
  rw [h]

lemma parse_amount_of_none {raw : List Char}
    (h : decParse (commaDotsTransform (pyStrip
      (raw.filter (fun c => !(c == '€' || c == '$'))))) = none) :
    parse_amount raw = PyDec.fin 0 := by
  simp only [parse_amount]
  rw [h]

lemma decParse_of_lit {l : List Char} {d : DecLit} (h : parseDecimal l = some d) :
    decParse l = some (decLitValue d) := by
  rw [decParse, h, Option.map_some']

lemma decParse_std : decParse "1234.56".data = some (PyDec.fin 1234.56) := by
  have h := decParse_of_lit (l := "1234.56".data) (d := DecLit.fin 1 123456 2 0)
    (by decide)
  rw [h]
  norm_num [decLitValue]

end Invoice

/-- C6: `parse_amount` maps each of the three shapes "1.234,56",
"1234,56" and "1234.56" — currency symbols and whitespace stripped — to
exactly the finite decimal 1234.56; and whenever the cleaned,
locale-normalized string makes the `Decimal` constructor raise,
it returns zero instead of failing. The failure boundary is Python's:
"nan" parses to a quiet NaN, underscored numerals such as "1_0" and
whitespace-padded numerals such as " 5" parse to their numeric values,
so none of them hit the zero fallback. -/
theorem parse_amount_spec :
    Invoice.parse_amount "1.234,56".data = Invoice.PyDec.fin 1234.56 ∧
    Invoice.parse_amount "1234,56".data = Invoice.PyDec.fin 1234.56 ∧
    Invoice.parse_amount "1234.56".data = Invoice.PyDec.fin 1234.56 ∧
    Invoice.parse_amount " 1.234,56 € ".data = Invoice.PyDec.fin 1234.56 ∧
    (∀ raw : List Char,
      Invoice.decParse (Invoice.commaDotsTransform (Invoice.pyStrip
        (raw.filter (fun c => !(c == '€' || c == '$'))))) = none →
      Invoice.parse_amount raw = Invoice.PyDec.fin 0) ∧
    Invoice.parse_amount "abc".data = Invoice.PyDec.fin 0 ∧
    Invoice.parse_amount "nan".data = Invoice.PyDec.nan ∧
    Invoice.parse_amount "1_0".data = Invoice.PyDec.fin 10 ∧
    Invoice.decParse " 5".data = some (Invoice.PyDec.fin 5) := by
  refine ⟨?_, ?_, ?_, ?_, ?_, ?_, ?_, ?_, ?_⟩
  · apply Invoice.parse_amount_of_some
    rw [show Invoice.commaDotsTransform (Invoice.pyStrip
      ("1.234,56".data.filter (fun c => !(c == '€' || c == '$')))) = "1234.56".data
      from by decide]
    exact Invoice.decParse_std
  · apply Invoice.parse_amount_of_some
    rw [show Invoice.commaDotsTransform (Invoice.pyStrip
      ("1234,56".data.filter (fun c => !(c == '€' || c == '$')))) = "1234.56".data
      from by decide]
    exact Invoice.decParse_std
  · apply Invoice.parse_amount_of_some
    rw [show Invoice.commaDotsTransform (Invoice.pyStrip
      ("1234.56".data.filter (fun c => !(c == '€' || c == '$')))) = "1234.56".data
      from by decide]
    exact Invoice.decParse_std
  · apply Invoice.parse_amount_of_some
    rw [show Invoice.commaDotsTransform (Invoice.pyStrip
      (" 1.234,56 € ".data.filter (fun c => !(c == '€' || c == '$')))) = "1234.56".data
      from by decide]
    exact Invoice.decParse_std
  · intro raw h
    exact Invoice.parse_amount_of_none h
  · exact Invoice.parse_amount_of_none (by decide)
  · apply Invoice.parse_amount_of_some
    exact Invoice.decParse_of_lit (d := Invoice.DecLit.nan) (by decide)
  · apply Invoice.parse_amount_of_some
    have h := Invoice.decParse_of_lit (d := Invoice.DecLit.fin 1 10 0 0)
      (l := Invoice.commaDotsTransform (Invoice.pyStrip
        ("1_0".data.filter (fun c => !(c == '€' || c == '$'))))) (by decide)
    rw [h]
    norm_num [Invoice.decLitValue]
  · have h := Invoice.decParse_of_lit (l := " 5".data) (d := Invoice.DecLit.fin 1 5 0 0)
      (by decide)
    rw [h]
    norm_num [Invoice.decLitValue]

/-- C6 (witness): the zero-fallback clause of `parse_amount_spec`
instantiated at the unparsable input "abc". -/
theorem parse_amount_spec_witness :
    Invoice.decParse (Invoice.commaDotsTransform (Invoice.pyStrip
      ("abc".data.filter (fun c => !(c == '€' || c == '$'))))) = none ∧
    Invoice.parse_amount "abc".data = Invoice.PyDec.fin 0 :=
  ⟨by decide, parse_amount_spec.2.2.2.2.1 "abc".data (by decide)⟩

namespace Invoice

end Invoice

namespace Invoice

lemma missingColErrors_eq_nil {df : DataFrame} {req : List (List Char)}
    {pre : List Char} (h : ∀ col ∈ req, df.columns.contains col = true) :
    missingColErrors df req pre = [] := by
  rw [missingColErrors, List.filterMap_eq_nil_iff]
  intro col hcol
  rw [if_pos (h col hcol)]

lemma mem_missingColErrors {df : DataFrame} {req : List (List Char)}
    {pre : List Char} {e : InvoiceValidationError}
    (h : e ∈ missingColErrors df req pre) :
    e.row_index = -1 ∧ e.field_name ∈ req ∧ df.columns.contains e.field_name = false := by
  rw [missingColErrors, List.mem_filterMap] at h
  obtain ⟨col, hcol, heq⟩ := h
  by_cases hc : df.columns.contains col = true
  · rw [if_pos hc] at heq
    cases heq
  · rw [if_neg hc] at heq
    obtain rfl : InvoiceValidationError.mk (-1) col (pre ++ col) none = e := by
      injection heq
    refine ⟨rfl, hcol, ?_⟩
    rcases Bool.eq_false_or_eq_true (df.columns.contains col) with hf | hf
    · exact absurd hf hc
    · exact hf

lemma missingColErrors_ne_nil {df : DataFrame} {req : List (List Char)}
    {pre col : List Char} (hcol : col ∈ req)
    (h : df.columns.contains col = false) :
    missingColErrors df req pre ≠ [] := by
  apply List.ne_nil_of_mem (a := (⟨-1, col, pre ++ col, none⟩ : InvoiceValidationError))
  rw [missingColErrors, List.mem_filterMap]
  refine ⟨col, hcol, ?_⟩
  rw [if_neg (by rw [h]; exact Bool.false_ne_true)]

lemma foldl_append_eq_bind {α β : Type} (g : α → List β) (l : List α)
    (acc : List β) :
    l.foldl (fun acc p => acc ++ g p) acc = acc ++ l.flatMap g := by
  induction l generalizing acc with
  | nil => simp
  | cons x l ih =>
    rw [List.foldl_cons, ih, List.flatMap_cons, List.append_assoc]

lemma validate_of_cols_present {dfF dfC : DataFrame}
    (hF : ∀ col ∈ requiredFacturaCols, dfF.columns.contains col = true)
    (hC : ∀ col ∈ requiredConceptosCols, dfC.columns.contains col = true) :
    validate_invoice_data dfF dfC =
      (((dfF.rows.enum).flatMap (fun p => rowErrors dfC (Int.ofNat p.1) p.2)).isEmpty,
       (dfF.rows.enum).flatMap (fun p => rowErrors dfC (Int.ofNat p.1) p.2)) := by
  rw [validate_invoice_data]
  rw [missingColErrors_eq_nil hF, missingColErrors_eq_nil hC]
  simp only [List.nil_append, List.isEmpty_nil, if_true]
  rw [foldl_append_eq_bind]
  rw [List.nil_append]

lemma validate_of_missing {dfF dfC : DataFrame}
    (h : (missingColErrors dfF requiredFacturaCols
        "Falta la columna requerida: ".data ++
      missingColErrors dfC requiredConceptosCols
        "Falta la columna requerida en conceptos: ".data) ≠ []) :
    validate_invoice_data dfF dfC =
      (false,
       missingColErrors dfF requiredFacturaCols
         "Falta la columna requerida: ".data ++
       missingColErrors dfC requiredConceptosCols
         "Falta la columna requerida en conceptos: ".data) := by
  rw [validate_invoice_data]
  rw [if_neg (by simpa [List.isEmpty_iff] using h)]

end Invoice

/-- C4: whenever a required header or line-item column is absent,
`validate_invoice_data` returns validity false with a nonempty error
list, and every reported error is batch level — row index −1 and naming a
required column that is indeed missing from its dataframe — so no
per-row error (row index ≥ 0) is emitted. -/
theorem validate_missing_columns_spec :
    ∀ dfF dfC : Invoice.DataFrame,
      ((∃ col ∈ Invoice.requiredFacturaCols, dfF.columns.contains col = false) ∨
       (∃ col ∈ Invoice.requiredConceptosCols, dfC.columns.contains col = false)) →
      (Invoice.validate_invoice_data dfF dfC).1 = false ∧
      (Invoice.validate_invoice_data dfF dfC).2 ≠ [] ∧
      ∀ e ∈ (Invoice.validate_invoice_data dfF dfC).2,
        e.row_index = -1 ∧
        ((e.field_name ∈ Invoice.requiredFacturaCols ∧
            dfF.columns.contains e.field_name = false) ∨
         (e.field_name ∈ Invoice.requiredConceptosCols ∧
            dfC.columns.contains e.field_name = false)) := by
  intro dfF dfC h
  have hne : (Invoice.missingColErrors dfF Invoice.requiredFacturaCols
      "Falta la columna requerida: ".data ++
    Invoice.missingColErrors dfC Invoice.requiredConceptosCols
      "Falta la columna requerida en conceptos: ".data) ≠ [] := by
    rcases h with ⟨col, hcol, hmiss⟩ | ⟨col, hcol, hmiss⟩
    · intro hnil
      rcases List.append_eq_nil.mp hnil with ⟨h1, h2⟩
      exact Invoice.missingColErrors_ne_nil hcol hmiss h1
    · intro hnil
      rcases List.append_eq_nil.mp hnil with ⟨h1, h2⟩
      exact Invoice.missingColErrors_ne_nil hcol hmiss h2
  rw [Invoice.validate_of_missing hne]
  refine ⟨rfl, hne, ?_⟩
  intro e he
  rcases List.mem_append.mp he with hm | hm
  · have := Invoice.mem_missingColErrors hm
    exact ⟨this.1, Or.inl ⟨this.2.1, this.2.2⟩⟩
  · have := Invoice.mem_missingColErrors hm
    exact ⟨this.1, Or.inr ⟨this.2.1, this.2.2⟩⟩

/-- C4 (witness): `validate_missing_columns_spec` applied to a concrete
batch whose header dataframe lacks the issuer and customer columns. -/
theorem validate_missing_columns_spec_witness :
    (Invoice.validate_invoice_data ⟨["NumFactura".data], []⟩
      ⟨Invoice.requiredConceptosCols, []⟩).1 = false ∧
    ∀ e ∈ (Invoice.validate_invoice_data ⟨["NumFactura".data], []⟩
      ⟨Invoice.requiredConceptosCols, []⟩).2, e.row_index = -1 := by
  have h := validate_missing_columns_spec ⟨["NumFactura".data], []⟩
    ⟨Invoice.requiredConceptosCols, []⟩ (by decide)
  exact ⟨h.1, fun e he => (h.2.2 e he).1⟩

/-- C3: with all required columns present, `validate_invoice_data`
returns validity true exactly when the collected error list is empty (in
fact that equivalence holds for every batch), and every header row whose
normalized identifier matches no line item's normalized identifier makes
it return false together with an error for that row on field "conceptos",
naming the missing line items and carrying that header's normalized
invoice identifier. -/
theorem validate_invoice_data_spec :
    (∀ dfF dfC : Invoice.DataFrame,
      (Invoice.validate_invoice_data dfF dfC).1 = true ↔
        (Invoice.validate_invoice_data dfF dfC).2 = []) ∧
    (∀ (dfF dfC : Invoice.DataFrame) (idx : Nat)
        (row : List ((List Char) × (List Char))),
      (∀ col ∈ Invoice.requiredFacturaCols, dfF.columns.contains col = true) →
      (∀ col ∈ Invoice.requiredConceptosCols, dfC.columns.contains col = true) →
      (idx, row) ∈ dfF.rows.enum →
      (dfC.rows.filter (fun r =>
        Invoice.normalize_invoice_id (Invoice.rowGetD r "NumFactura".data []) ==
          Invoice.normalize_invoice_id
            (Invoice.rowGetD row "NumFactura".data []))).length = 0 →
      (Invoice.validate_invoice_data dfF dfC).1 = false ∧
      (⟨Int.ofNat idx, "conceptos".data,
          "La factura no tiene conceptos asociados".data,
          some (Invoice.normalize_invoice_id
            (Invoice.rowGetD row "NumFactura".data []))⟩ :
        Invoice.InvoiceValidationError) ∈
          (Invoice.validate_invoice_data dfF dfC).2) := by
  constructor
  · intro dfF dfC
    rw [Invoice.validate_invoice_data]
    by_cases h : (Invoice.missingColErrors dfF Invoice.requiredFacturaCols
        "Falta la columna requerida: ".data ++
      Invoice.missingColErrors dfC Invoice.requiredConceptosCols
        "Falta la columna requerida en conceptos: ".data).isEmpty = true
    · rw [if_pos h]
      simp [List.isEmpty_iff]
    · rw [if_neg h]
      simp only [List.isEmpty_iff] at h
      simpa using h
  · intro dfF dfC idx row hF hC henum hmatch
    have hval := Invoice.validate_of_cols_present hF hC
    have hmem : (⟨Int.ofNat idx, "conceptos".data,
        "La factura no tiene conceptos asociados".data,
        some (Invoice.normalize_invoice_id
          (Invoice.rowGetD row "NumFactura".data []))⟩ :
        Invoice.InvoiceValidationError) ∈
          Invoice.rowErrors dfC (Int.ofNat idx) row := by
      rw [Invoice.rowErrors]
      simp only [hmatch, if_pos]
      simp [List.mem_append]
    have hbind : (⟨Int.ofNat idx, "conceptos".data,
        "La factura no tiene conceptos asociados".data,
        some (Invoice.normalize_invoice_id
          (Invoice.rowGetD row "NumFactura".data []))⟩ :
        Invoice.InvoiceValidationError) ∈
          (dfF.rows.enum).flatMap
            (fun p => Invoice.rowErrors dfC (Int.ofNat p.1) p.2) :=
      List.mem_flatMap.mpr ⟨(idx, row), henum, hmem⟩
    have hne := List.ne_nil_of_mem hbind
    obtain ⟨y, ys, hys⟩ := List.exists_cons_of_ne_nil hne
    constructor
    · rw [hval]
      show ((dfF.rows.enum).flatMap
        (fun p => Invoice.rowErrors dfC (Int.ofNat p.1) p.2)).isEmpty = false
      rw [hys]
      rfl
    · rw [hval]
      exact hbind

/-- C3 (witness): the orphan-header clause of `validate_invoice_data_spec`
applied to a concrete batch with one header row "FAC9" and an empty
line-item dataframe carrying all required columns. -/
theorem validate_invoice_data_spec_witness :
    (Invoice.validate_invoice_data
      ⟨Invoice.requiredFacturaCols,
        [[("NumFactura".data, "FAC9".data), ("empresa_emisora".data, "E".data),
          ("cliente_nombre".data, "C".data)]]⟩
      ⟨Invoice.requiredConceptosCols, []⟩).1 = false ∧
    (⟨Int.ofNat 0, "conceptos".data,
        "La factura no tiene conceptos asociados".data,
        some (Invoice.normalize_invoice_id
          (Invoice.rowGetD
            [("NumFactura".data, "FAC9".data), ("empresa_emisora".data, "E".data),
             ("cliente_nombre".data, "C".data)] "NumFactura".data []))⟩ :
      Invoice.InvoiceValidationError) ∈
        (Invoice.validate_invoice_data
          ⟨Invoice.requiredFacturaCols,
            [[("NumFactura".data, "FAC9".data), ("empresa_emisora".data, "E".data),
              ("cliente_nombre".data, "C".data)]]⟩
          ⟨Invoice.requiredConceptosCols, []⟩).2 :=
  validate_invoice_data_spec.2
    ⟨Invoice.requiredFacturaCols,
      [[("NumFactura".data, "FAC9".data), ("empresa_emisora".data, "E".data),
        ("cliente_nombre".data, "C".data)]]⟩
    ⟨Invoice.requiredConceptosCols, []⟩ 0
    [("NumFactura".data, "FAC9".data), ("empresa_emisora".data, "E".data),
     ("cliente_nombre".data, "C".data)]
    (by decide) (by decide) (by decide) (by decide)


